import Mathlib

/-!
Shallow embedding of the CBS-TA grid example (`src/example/cbs_ta.cpp`):
data types (`State`, `Action`, constraints, conflicts) and the
`Environment` member functions the specification talks about.
Machine `int` fields are modelled as `Int`, `size_t` indices as `Nat`;
`std::unordered_set` is modelled as a duplicate-free list in an
unspecified iteration order, and membership tests (`find != end`)
as list membership.
-/

namespace CBSTA

/-- A low-level search state `(time, x, y)`, as in the C++ `State` struct. -/
structure State where
  time : Int
  x : Int
  y : Int
deriving DecidableEq

/-- The C++ `State::equalExceptTime`: spatial equality, ignoring time. -/
def State.equalExceptTime (s1 s2 : State) : Bool :=
  s1.x == s2.x && s1.y == s2.y

/-- The five grid actions of the C++ `Action` enum. -/
inductive Action where
  | Up
  | Down
  | Left
  | Right
  | Wait
deriving DecidableEq

/-- A grid cell, as in the C++ `Location` struct. -/
structure Location where
  x : Int
  y : Int
deriving DecidableEq

/-- The C++ `VertexConstraint` struct. -/
structure VertexConstraint where
  time : Int
  x : Int
  y : Int
deriving DecidableEq

/-- The C++ `EdgeConstraint` struct. -/
structure EdgeConstraint where
  time : Int
  x1 : Int
  y1 : Int
  x2 : Int
  y2 : Int
deriving DecidableEq

/-- The C++ `Constraints` struct: an unordered set of vertex constraints and
an unordered set of edge constraints, each modelled as a list in iteration
order. -/
structure Constraints where
  vertexConstraints : List VertexConstraint
  edgeConstraints : List EdgeConstraint
deriving DecidableEq

/-- The C++ `Conflict::Type` enum. -/
inductive ConflictType where
  | Vertex
  | Edge
deriving DecidableEq

/-- The C++ `Conflict` struct.  The C++ code leaves `x2`, `y2` unassigned for
vertex conflicts; the embedding sets them to `0` there. -/
structure Conflict where
  time : Int
  agent1 : Nat
  agent2 : Nat
  type : ConflictType
  x1 : Int
  y1 : Int
  x2 : Int
  y2 : Int
deriving DecidableEq

/-- A low-level successor, as in `Neighbor<State, Action, int>`. -/
structure Neighbor where
  state : State
  action : Action
  cost : Int
deriving DecidableEq

/-- First hit of a C++ style `for (k = s; k < s + len; ++k)` loop that
returns as soon as `f k` produces a value. -/
def forFirst (f : Nat → Option α) : Nat → Nat → Option α
  | _, 0 => none
  | s, len + 1 =>
    match f s with
    | some b => some b
    | none => forFirst f (s + 1) len

theorem forFirst_eq_none {f : Nat → Option α} :
    ∀ {s len : Nat}, forFirst f s len = none ↔
      ∀ k, s ≤ k → k < s + len → f k = none := by
  intro s len
  induction len generalizing s with
  | zero =>
    simp only [forFirst]
    constructor
    · intro _ k hk1 hk2
      omega
    · intro _
      trivial
  | succ n ih =>
    simp only [forFirst]
    cases hfs : f s with
    | some b =>
      simp only [reduceCtorEq, false_iff]
      intro h
      have := h s le_rfl (by omega)
      rw [hfs] at this
      exact Option.noConfusion this
    | none =>
      rw [ih]
      constructor
      · intro h k hk1 hk2
        rcases Nat.eq_or_lt_of_le hk1 with rfl | hk1
        · exact hfs
        · exact h k hk1 (by omega)
      · intro h k hk1 hk2
        exact h k (by omega) (by omega)

theorem forFirst_eq_some {f : Nat → Option α} {b : α} :
    ∀ {s len : Nat}, forFirst f s len = some b →
      ∃ t, s ≤ t ∧ t < s + len ∧ f t = some b ∧
        ∀ u, s ≤ u → u < t → f u = none := by
  intro s len
  induction len generalizing s with
  | zero =>
    intro h
    exact absurd h (by simp [forFirst])
  | succ n ih =>
    intro h
    simp only [forFirst] at h
    cases hfs : f s with
    | some c =>
      rw [hfs] at h
      refine ⟨s, le_rfl, by omega, ?_, ?_⟩
      · rw [hfs]; exact h
      · intro u hu1 hu2
        omega
    | none =>
      rw [hfs] at h
      obtain ⟨t, ht1, ht2, ht3, ht4⟩ := ih h
      refine ⟨t, by omega, by omega, ht3, ?_⟩
      intro u hu1 hu2
      rcases Nat.eq_or_lt_of_le hu1 with rfl | hu1
      · exact hfs
      · exact ht4 u hu1 hu2

/-- Default state used where the C++ code would read from an asserted
non-empty vector. -/
def defaultState : State := ⟨0, 0, 0⟩

/-- The C++ `Environment::getState`: the state of the plan of one agent at time
`t`, with the agent parked at its final state once its plan has ended. -/
def getState (plan : List State) (t : Nat) : State :=
  if h : t < plan.length then plan.get ⟨t, h⟩
  else plan.getLastD defaultState

/-- `getState` applied to the plan of agent `i` inside a joint solution. -/
def getStateIdx (solution : List (List State)) (i : Nat) (t : Nat) : State :=
  getState (solution.getD i []) t

/-- The `max_t` computed at the top of `Environment::getFirstConflict`: the
largest last index over all plans of the joint solution. -/
def maxPlanIndex (solution : List (List State)) : Nat :=
  solution.foldl (fun m p => max m (p.length - 1)) 0

/-- The vertex-collision test inside `getFirstConflict` for agents `i < j`
at time `t`. -/
def vertexCheck (solution : List (List State)) (t i j : Nat) : Option Conflict :=
  let state1 := getStateIdx solution i t
  let state2 := getStateIdx solution j t
  if state1.equalExceptTime state2 then
    some ⟨(t : Int), i, j, ConflictType.Vertex, state1.x, state1.y, 0, 0⟩
  else none

/-- The edge-swap test inside `getFirstConflict` for agents `i < j` between
times `t` and `t+1`. -/
def edgeCheck (solution : List (List State)) (t i j : Nat) : Option Conflict :=
  let state1a := getStateIdx solution i t
  let state1b := getStateIdx solution i (t + 1)
  let state2a := getStateIdx solution j t
  let state2b := getStateIdx solution j (t + 1)
  if state1a.equalExceptTime state2b && state1b.equalExceptTime state2a then
    some ⟨(t : Int), i, j, ConflictType.Edge, state1a.x, state1a.y, state1b.x, state1b.y⟩
  else none

/-- The doubly nested agent-pair loops of `getFirstConflict`:
`for (i = 0; i < n; ++i) for (j = i+1; j < n; ++j)`. -/
def scanPairs (n : Nat) (f : Nat → Nat → Option Conflict) : Option Conflict :=
  forFirst (fun i => forFirst (f i) (i + 1) (n - (i + 1))) 0 n

/-- The body of the time loop of `getFirstConflict`: at time `t`, first all
vertex collisions over agent pairs in lexicographic order, then all edge
swaps. -/
def conflictStep (solution : List (List State)) (t : Nat) : Option Conflict :=
  match scanPairs solution.length (vertexCheck solution t) with
  | some c => some c
  | none => scanPairs solution.length (edgeCheck solution t)

/-- The C++ `Environment::getFirstConflict`: scan times `0 ≤ t < max_t`, at
each time first all vertex collisions and then all edge swaps; `none` plays
the role of returning `false`. -/
def getFirstConflict (solution : List (List State)) : Option Conflict :=
  forFirst (conflictStep solution) 0 (maxPlanIndex solution)

/-- Vertex conflict as the specification describes it: agents `i < j` of the
joint plan occupy the same cell at time `t`, agents parked after their plans
end. -/
def specVertexConflict (solution : List (List State)) (t i j : Nat) : Bool :=
  decide (i < j) && decide (j < solution.length) &&
    (getStateIdx solution i t).equalExceptTime (getStateIdx solution j t)

/-- Edge conflict as the specification describes it: agents `i < j` swap
across an edge between times `t` and `t+1`. -/
def specEdgeConflict (solution : List (List State)) (t i j : Nat) : Bool :=
  decide (i < j) && decide (j < solution.length) &&
    (getStateIdx solution i t).equalExceptTime (getStateIdx solution j (t + 1)) &&
    (getStateIdx solution i (t + 1)).equalExceptTime (getStateIdx solution j t)

/-- Update of a `std::map<size_t, Constraints>` entry via `operator[]`
assignment. -/
def mapSet (m : Nat → Option Constraints) (k : Nat) (v : Constraints) :
    Nat → Option Constraints :=
  fun q => if q = k then some v else m q

/-- The empty `std::map<size_t, Constraints>` passed into
`createConstraintsFromConflict`. -/
def emptyConstraintsMap : Nat → Option Constraints := fun _ => none

/-- The C++ `Environment::createConstraintsFromConflict`: fills a map from
agent index to the single new constraint set for each of the two agents of
the conflict. -/
def createConstraintsFromConflict (conflict : Conflict) :
    Nat → Option Constraints :=
  match conflict.type with
  | ConflictType.Vertex =>
    let c1 : Constraints := ⟨[⟨conflict.time, conflict.x1, conflict.y1⟩], []⟩
    mapSet (mapSet emptyConstraintsMap conflict.agent1 c1) conflict.agent2 c1
  | ConflictType.Edge =>
    let c1 : Constraints :=
      ⟨[], [⟨conflict.time, conflict.x1, conflict.y1, conflict.x2, conflict.y2⟩]⟩
    let c2 : Constraints :=
      ⟨[], [⟨conflict.time, conflict.x2, conflict.y2, conflict.x1, conflict.y1⟩]⟩
    mapSet (mapSet emptyConstraintsMap conflict.agent1 c1) conflict.agent2 c2

/-- The `m_lastGoalConstraint` computed by
`Environment::setLowLevelContext`: starting from `-1`, fold `max` over the
times of the vertex constraints at the goal cell of the current task. -/
def lastGoalConstraint (constraints : Constraints) (goal : Location) : Int :=
  constraints.vertexConstraints.foldl
    (fun acc vc => if vc.x = goal.x ∧ vc.y = goal.y then max acc vc.time else acc)
    (-1)

/-- The C++ `Environment::isSolution` after `setLowLevelContext` installed
`constraints` and the task whose goal cell is `goal`. -/
def isSolution (constraints : Constraints) (goal : Location) (s : State) : Bool :=
  decide (s.x = goal.x) && decide (s.y = goal.y) &&
    decide (s.time > lastGoalConstraint constraints goal)

/-- The maximum time of a vertex constraint at the goal cell, or `-1` when
there is none, exactly as the specification words it (second definition for
the refinement claim C5; compare `lastGoalConstraint`). -/
def specLastGoalConstraint (constraints : Constraints) (goal : Location) : Int :=
  match (constraints.vertexConstraints.filter
      (fun vc => vc.x = goal.x ∧ vc.y = goal.y)).map (fun vc => vc.time) with
  | [] => -1
  | t :: ts => ts.foldl max t

/-- The low-level context installed by `setLowLevelContext` that
`stateValid`, `transitionValid` and `getNeighbors` read: grid dimensions,
obstacle set and the constraints of the current agent. -/
structure LowLevelEnv where
  dimx : Int
  dimy : Int
  obstacles : List Location
  constraints : Constraints

/-- The C++ `Environment::stateValid`: in-grid, not an obstacle, and not
hitting a vertex constraint of the current agent. -/
def stateValid (env : LowLevelEnv) (s : State) : Bool :=
  decide (0 ≤ s.x ∧ s.x < env.dimx ∧ 0 ≤ s.y ∧ s.y < env.dimy ∧
    Location.mk s.x s.y ∉ env.obstacles ∧
    VertexConstraint.mk s.time s.x s.y ∉ env.constraints.vertexConstraints)

/-- The C++ `Environment::transitionValid`: the move is not forbidden by an
edge constraint of the current agent. -/
def transitionValid (env : LowLevelEnv) (s1 s2 : State) : Bool :=
  decide (EdgeConstraint.mk s1.time s1.x s1.y s2.x s2.y ∉
    env.constraints.edgeConstraints)

/-- The successor state each action proposes in `getNeighbors`: time
advances by one, the cell moves accordingly. -/
def actionTarget (s : State) (a : Action) : State :=
  match a with
  | Action.Wait => ⟨s.time + 1, s.x, s.y⟩
  | Action.Left => ⟨s.time + 1, s.x - 1, s.y⟩
  | Action.Right => ⟨s.time + 1, s.x + 1, s.y⟩
  | Action.Up => ⟨s.time + 1, s.x, s.y + 1⟩
  | Action.Down => ⟨s.time + 1, s.x, s.y - 1⟩

/-- The C++ `Environment::getNeighbors`: the five candidate moves in source
order (Wait, Left, Right, Up, Down), each kept iff `stateValid` and
`transitionValid` accept it, each with cost `1`. -/
def getNeighbors (env : LowLevelEnv) (s : State) : List Neighbor :=
  (if (stateValid env (actionTarget s Action.Wait) &&
      transitionValid env s (actionTarget s Action.Wait)) = true then
    [⟨actionTarget s Action.Wait, Action.Wait, 1⟩] else []) ++
  (if (stateValid env (actionTarget s Action.Left) &&
      transitionValid env s (actionTarget s Action.Left)) = true then
    [⟨actionTarget s Action.Left, Action.Left, 1⟩] else []) ++
  (if (stateValid env (actionTarget s Action.Right) &&
      transitionValid env s (actionTarget s Action.Right)) = true then
    [⟨actionTarget s Action.Right, Action.Right, 1⟩] else []) ++
  (if (stateValid env (actionTarget s Action.Up) &&
      transitionValid env s (actionTarget s Action.Up)) = true then
    [⟨actionTarget s Action.Up, Action.Up, 1⟩] else []) ++
  (if (stateValid env (actionTarget s Action.Down) &&
      transitionValid env s (actionTarget s Action.Down)) = true then
    [⟨actionTarget s Action.Down, Action.Down, 1⟩] else [])

/-- The `std::set_intersection` algorithm, as specified for sorted ranges,
applied to lists in their iteration order with comparison `lt`.  When the
inputs are not sorted by `lt` the algorithm may miss common elements. -/
def setIntersectionBy (lt : α → α → Bool) : List α → List α → List α
  | [], _ => []
  | _ :: _, [] => []
  | a :: as, b :: bs =>
    if lt a b then setIntersectionBy lt as (b :: bs)
    else if lt b a then setIntersectionBy lt (a :: as) bs
    else a :: setIntersectionBy lt as bs
termination_by l1 l2 => l1.length + l2.length

/-- The C++ `VertexConstraint::operator<`: lexicographic on
`(time, x, y)`. -/
def vcLess (a b : VertexConstraint) : Bool :=
  decide (a.time < b.time ∨ (a.time = b.time ∧
    (a.x < b.x ∨ (a.x = b.x ∧ a.y < b.y))))

/-- The C++ `EdgeConstraint::operator<`: lexicographic on
`(time, x1, y1, x2, y2)`. -/
def ecLess (a b : EdgeConstraint) : Bool :=
  decide (a.time < b.time ∨ (a.time = b.time ∧
    (a.x1 < b.x1 ∨ (a.x1 = b.x1 ∧
      (a.y1 < b.y1 ∨ (a.y1 = b.y1 ∧
        (a.x2 < b.x2 ∨ (a.x2 = b.x2 ∧ a.y2 < b.y2))))))))

/-- The C++ `Constraints::overlap`: runs `std::set_intersection` over the
iteration ranges of the two vertex-constraint sets and of the two
edge-constraint sets and reports whether either output is non-empty.  The
ranges come from `std::unordered_set`, so they are not sorted as
`std::set_intersection` requires. -/
def Constraints.overlap (c other : Constraints) : Bool :=
  decide ((setIntersectionBy vcLess c.vertexConstraints other.vertexConstraints).length > 0 ∨
    (setIntersectionBy ecLess c.edgeConstraints other.edgeConstraints).length > 0)

/-- The task-assignment side of `Environment` that `nextTaskAssignment`
touches: the budget, the counter, and the stream of assignments the
`NextBestAssignment` member still has to offer (each a map from agent to
task, in key order; an empty map models an exhausted enumerator). -/
structure TaskAssignmentState where
  maxTaskAssignments : Nat
  numTaskAssignments : Nat
  pending : List (List (Nat × Nat))
deriving DecidableEq

/-- `std::vector::resize` on a vector of `size_t`: truncate or pad with
zeros. -/
def resizeVec (l : List Nat) (n : Nat) : List Nat :=
  l.take n ++ List.replicate (n - l.length) 0

/-- The task vector written by `nextTaskAssignment`:
`tasks.resize(solution.size())` followed by `tasks[s.first] = s.second` for
each entry of the solution map. -/
def buildTasks (solutionMap : List (Nat × Nat)) (tasks : List Nat) : List Nat :=
  solutionMap.foldl (fun ts p => ts.set p.1 p.2) (resizeVec tasks solutionMap.length)

/-- The C++ `Environment::nextTaskAssignment`: refuse when the counter
strictly exceeds the budget; otherwise draw one solution from the
enumerator, and if it is non-empty rebuild `tasks` and increment the
counter. -/
def nextTaskAssignment (st : TaskAssignmentState) (tasks : List Nat) :
    TaskAssignmentState × List Nat :=
  if st.numTaskAssignments > st.maxTaskAssignments then (st, tasks)
  else
    match st.pending with
    | [] => ({ st with pending := [] }, tasks)
    | solutionMap :: rest =>
      if solutionMap.length > 0 then
        (⟨st.maxTaskAssignments, st.numTaskAssignments + 1, rest⟩,
         buildTasks solutionMap tasks)
      else ({ st with pending := rest }, tasks)

/-- The exact-arithmetic group start `⌊i / groupSize⌋ · groupSize` of the
`Environment` constructor.  The C++ computes it as
`floor(i / (float)agentsPerGroup) * agentsPerGroup`, i.e. in
single-precision floating point; the two coincide whenever the values stay
within the exactly representable range of the float. -/
def groupStart (i agentsPerGroup : Nat) : Nat :=
  i / agentsPerGroup * agentsPerGroup

/-- The cost-matrix entries set by the `Environment` constructor: one entry
per agent `i` and goal `j` inside the group window of `i`, with the heuristic
distance from the start cell of `i` to goal `j` as cost.  The heuristic `h`
abstracts `ShortestPathHeuristic::getValue` (its header is not part of the
sources). -/
def buildCostMatrix (h : Location → Location → Int) (startStates : List State)
    (goals : List Location) (agentsPerGroup : Nat) : List (Nat × Nat × Int) :=
  (List.range startStates.length).flatMap (fun i =>
    (List.range goals.length).filterMap (fun j =>
      if groupStart i agentsPerGroup ≤ j ∧ j < groupStart i agentsPerGroup + agentsPerGroup then
        some (i, j,
          h (Location.mk ((startStates.getD i defaultState).x)
              ((startStates.getD i defaultState).y))
            (goals.getD j (Location.mk 0 0)))
      else none))

/-- The members of `Environment` fixed at construction. -/
structure EnvInit where
  dimx : Int
  dimy : Int
  obstacles : List Location
  goals : List Location
  maxTaskAssignments : Nat
  costMatrix : List (Nat × Nat × Int)
deriving DecidableEq

/-- The C++ `Environment` constructor: store the grid data, build the
assignment cost matrix and solve the first assignment.  It performs no
validation of its inputs, so construction always succeeds; `Option` is the
failure channel the claims speak about, and `none` is never produced. -/
def mkEnvironment (h : Location → Location → Int) (dimx dimy : Int)
    (obstacles : List Location) (startStates : List State)
    (goals : List Location) (maxTaskAssignments agentsPerGroup : Nat) :
    Option EnvInit :=
  some ⟨dimx, dimy, obstacles, goals, maxTaskAssignments,
    buildCostMatrix h startStates goals agentsPerGroup⟩

/-- Invalid input in the sense of the error-handling section of the
specification: an out-of-range start or goal coordinate, two agents starting at
the same cell, or a goal inside an obstacle (second definition following
the words of the specification, for claim C9). -/
def specInputInvalid (dimx dimy : Int) (obstacles : List Location)
    (startStates : List State) (goals : List Location) : Bool :=
  decide ((∃ s ∈ startStates, ¬(0 ≤ s.x ∧ s.x < dimx ∧ 0 ≤ s.y ∧ s.y < dimy)) ∨
    (∃ g ∈ goals, ¬(0 ≤ g.x ∧ g.x < dimx ∧ 0 ≤ g.y ∧ g.y < dimy)) ∨
    ¬(startStates.map (fun s => Location.mk s.x s.y)).Nodup ∨
    (∃ g ∈ goals, g ∈ obstacles))

theorem lastGoal_foldl (l : List VertexConstraint) (g : Location) (a : Int) :
    l.foldl (fun acc vc => if vc.x = g.x ∧ vc.y = g.y then max acc vc.time else acc) a =
      ((l.filter (fun vc => vc.x = g.x ∧ vc.y = g.y)).map (fun vc => vc.time)).foldl max a := by
  induction l generalizing a with
  | nil => rfl
  | cons v vs ih =>
    by_cases hv : v.x = g.x ∧ v.y = g.y <;>
      simp [List.filter_cons, hv, List.foldl_cons, ih]

theorem foldl_max_comm (a b : Int) (l : List Int) :
    l.foldl max (max a b) = max a (l.foldl max b) := by
  induction l generalizing b with
  | nil => rfl
  | cons x xs ih =>
    simp only [List.foldl_cons]
    rw [max_assoc, ih]

theorem lastGoalConstraint_eq (constraints : Constraints) (goal : Location) :
    lastGoalConstraint constraints goal =
      max (-1) (specLastGoalConstraint constraints goal) := by
  unfold lastGoalConstraint specLastGoalConstraint
  rw [lastGoal_foldl]
  cases hl : (constraints.vertexConstraints.filter
      (fun vc => vc.x = goal.x ∧ vc.y = goal.y)).map (fun vc => vc.time) with
  | nil => simp
  | cons t ts =>
    simp only [List.foldl_cons]
    exact foldl_max_comm (-1) t ts

/-- C10: for a non-empty plan and any time index at or past the last plan
index, `getState` yields the final plan state, i.e. the agent is treated as
parked at its last cell after its plan ends. -/
theorem getState_parked (plan : List State) (h : plan ≠ []) (t : Nat)
    (ht : plan.length - 1 ≤ t) : getState plan t = plan.getLast h := by
  have hlen : 0 < plan.length := List.length_pos.mpr h
  unfold getState
  split
  · next hlt =>
    have hteq : t = plan.length - 1 := by omega
    subst hteq
    rw [List.getLast_eq_get]
  · next hge =>
    rw [List.getLastD_eq_getLast?, List.getLast?_eq_getLast plan h]
    rfl

theorem getState_parked_witness :
    getState [⟨0, 0, 0⟩, ⟨1, 2, 3⟩] 5 = (⟨1, 2, 3⟩ : State) := by
  rw [getState_parked [⟨0, 0, 0⟩, ⟨1, 2, 3⟩] (by decide) 5 (by decide)]
  rfl

/-- C4: `createConstraintsFromConflict` constrains exactly the two agents of
the conflict: a vertex conflict gives both agents the single vertex
constraint at its time and cell, an edge conflict gives agent 1 the edge
constraint and agent 2 the reversed edge constraint; every other agent gets
nothing. -/
theorem createConstraintsFromConflict_spec (conflict : Conflict)
    (hne : conflict.agent1 ≠ conflict.agent2) :
    (conflict.type = ConflictType.Vertex →
      createConstraintsFromConflict conflict conflict.agent1 =
        some ⟨[⟨conflict.time, conflict.x1, conflict.y1⟩], []⟩ ∧
      createConstraintsFromConflict conflict conflict.agent2 =
        some ⟨[⟨conflict.time, conflict.x1, conflict.y1⟩], []⟩) ∧
    (conflict.type = ConflictType.Edge →
      createConstraintsFromConflict conflict conflict.agent1 =
        some ⟨[], [⟨conflict.time, conflict.x1, conflict.y1, conflict.x2, conflict.y2⟩]⟩ ∧
      createConstraintsFromConflict conflict conflict.agent2 =
        some ⟨[], [⟨conflict.time, conflict.x2, conflict.y2, conflict.x1, conflict.y1⟩]⟩) ∧
    (∀ k, k ≠ conflict.agent1 → k ≠ conflict.agent2 →
      createConstraintsFromConflict conflict k = none) := by
  obtain ⟨time, a1, a2, ty, x1, y1, x2, y2⟩ := conflict
  simp only at hne
  cases ty with
  | Vertex =>
    refine ⟨fun _ => ⟨?_, ?_⟩, fun habs => absurd habs (by simp), fun k hk1 hk2 => ?_⟩ <;>
      simp_all [createConstraintsFromConflict, mapSet, emptyConstraintsMap]
  | Edge =>
    refine ⟨fun habs => absurd habs (by simp), fun _ => ⟨?_, ?_⟩, fun k hk1 hk2 => ?_⟩ <;>
      simp_all [createConstraintsFromConflict, mapSet, emptyConstraintsMap]

theorem createConstraintsFromConflict_witness :
    createConstraintsFromConflict ⟨3, 0, 1, ConflictType.Vertex, 5, 6, 0, 0⟩ 0 =
      some ⟨[⟨3, 5, 6⟩], []⟩ :=
  ((createConstraintsFromConflict_spec ⟨3, 0, 1, ConflictType.Vertex, 5, 6, 0, 0⟩
    (by decide)).1 rfl).1

/-- C5 (counterexample): with the single vertex constraint `VC(-2, 7, 8)` at
the goal cell `(7, 8)`, the state `(time -1, 7, 8)` is spatially at the goal
and its time `-1` strictly exceeds the maximum constraint time `-2` at the
goal, yet `isSolution` returns `false`, because the code folds `max`
starting from `-1` rather than taking the maximum of the constraint times
alone. -/
theorem isSolution_counterexample :
    isSolution ⟨[⟨-2, 7, 8⟩], []⟩ ⟨7, 8⟩ ⟨-1, 7, 8⟩ = false ∧
    (State.mk (-1) 7 8).x = (Location.mk 7 8).x ∧
    (State.mk (-1) 7 8).y = (Location.mk 7 8).y ∧
    (State.mk (-1) 7 8).time >
      specLastGoalConstraint ⟨[⟨-2, 7, 8⟩], []⟩ ⟨7, 8⟩ := by
  refine ⟨?_, rfl, rfl, ?_⟩ <;> decide

/-- C5 (amended): `isSolution` holds exactly when the state is spatially at
the goal cell and its time strictly exceeds the maximum of `-1` and the
times of the vertex constraints at the goal cell (so `-1` when there is no
such constraint; this coincides with the claim whenever no constraint time
is below `-1`, in particular for all constraints the search ever
creates). -/
theorem isSolution_iff (constraints : Constraints) (goal : Location) (s : State) :
    isSolution constraints goal s = true ↔
      (s.x = goal.x ∧ s.y = goal.y ∧
        s.time > max (-1) (specLastGoalConstraint constraints goal)) := by
  unfold isSolution
  rw [lastGoalConstraint_eq]
  simp [Bool.and_eq_true_iff, decide_eq_true_iff, and_assoc]

/-- C2 (counterexample): with `maxTaskAssignments = 1` and the counter
already equal to `1`, a further call still draws a fresh assignment and
raises the counter to `2`, because the guard uses a strict comparison. -/
theorem nextTaskAssignment_counterexample :
    (TaskAssignmentState.mk 1 1 [[(0, 0)]]).numTaskAssignments =
      (TaskAssignmentState.mk 1 1 [[(0, 0)]]).maxTaskAssignments ∧
    (nextTaskAssignment ⟨1, 1, [[(0, 0)]]⟩ []).1.numTaskAssignments = 2 := by
  decide

/-- C2 (amended): `nextTaskAssignment` refuses to draw only once the counter
strictly exceeds the budget, leaving state and tasks untouched; hence,
starting from a counter at most `maxTaskAssignments + 1`, the counter never
exceeds `maxTaskAssignments + 1` — one more draw than the bound of the claim. -/
theorem nextTaskAssignment_budget (st : TaskAssignmentState) (tasks : List Nat) :
    (st.numTaskAssignments > st.maxTaskAssignments →
      nextTaskAssignment st tasks = (st, tasks)) ∧
    (st.numTaskAssignments ≤ st.maxTaskAssignments + 1 →
      (nextTaskAssignment st tasks).1.numTaskAssignments ≤
        st.maxTaskAssignments + 1) := by
  constructor
  · intro h
    unfold nextTaskAssignment
    rw [if_pos h]
  · intro h
    unfold nextTaskAssignment
    by_cases hgt : st.numTaskAssignments > st.maxTaskAssignments
    · rw [if_pos hgt]
      exact h
    · rw [if_neg hgt]
      split
      · exact h
      · split
        · show st.numTaskAssignments + 1 ≤ st.maxTaskAssignments + 1
          omega
        · exact h

theorem nextTaskAssignment_budget_witness :
    nextTaskAssignment ⟨1, 3, []⟩ [] = (⟨1, 3, []⟩, []) :=
  (nextTaskAssignment_budget ⟨1, 3, []⟩ []).1 (by decide)

/-- C7 (code bug): `overlap` runs `std::set_intersection` on the iteration
ranges of unordered sets, which the algorithm requires to be sorted.  With
the vertex-constraint sets `{VC(0,0,0)}` and `{VC(0,0,1), VC(0,0,0)}`
iterated in the listed orders, the merge skips past the common element
`VC(0,0,0)` and `overlap` returns `false` although the sets intersect. -/
theorem overlap_code_bug :
    Constraints.overlap ⟨[⟨0, 0, 0⟩], []⟩ ⟨[⟨0, 0, 1⟩, ⟨0, 0, 0⟩], []⟩ = false ∧
    (VertexConstraint.mk 0 0 0) ∈
      (Constraints.mk [⟨0, 0, 0⟩] []).vertexConstraints ∧
    (VertexConstraint.mk 0 0 0) ∈
      (Constraints.mk [⟨0, 0, 1⟩, ⟨0, 0, 0⟩] []).vertexConstraints ∧
    (Constraints.mk [⟨0, 0, 1⟩, ⟨0, 0, 0⟩] []).vertexConstraints.Nodup := by
  refine ⟨?_, by decide, by decide, by decide⟩
  rw [Constraints.overlap]
  rw [setIntersectionBy, setIntersectionBy, setIntersectionBy]
  simp [vcLess]

/-- C9 (counterexample): an input whose only goal sits inside an obstacle is
invalid in the sense the specification gives, yet the `Environment` constructor
succeeds — it performs no input validation at all. -/
theorem mkEnvironment_counterexample :
    specInputInvalid 2 2 [⟨0, 0⟩] [⟨0, 1, 1⟩] [⟨0, 0⟩] = true ∧
    mkEnvironment (fun _ _ => 0) 2 2 [⟨0, 0⟩] [⟨0, 1, 1⟩] [⟨0, 0⟩] 1 1 ≠ none := by
  refine ⟨by decide, ?_⟩
  simp [mkEnvironment]

/-- C9 (amended): construction never fails; even for inputs that are invalid
invalid per the specification the constructor returns an environment with
the cost matrix built as usual, and the search would proceed on it. -/
theorem mkEnvironment_total (h : Location → Location → Int) (dimx dimy : Int)
    (obstacles : List Location) (startStates : List State)
    (goals : List Location) (maxTA agentsPerGroup : Nat)
    (hinv : specInputInvalid dimx dimy obstacles startStates goals = true) :
    ∃ e, mkEnvironment h dimx dimy obstacles startStates goals maxTA agentsPerGroup =
        some e ∧
      e.costMatrix = buildCostMatrix h startStates goals agentsPerGroup :=
  ⟨_, rfl, rfl⟩

theorem mkEnvironment_total_witness :
    ∃ e, mkEnvironment (fun _ _ => 1) 2 2 [⟨0, 0⟩] [⟨0, 1, 1⟩] [⟨0, 0⟩] 1 1 =
        some e ∧
      e.costMatrix = buildCostMatrix (fun _ _ => 1) [⟨0, 1, 1⟩] [⟨0, 0⟩] 1 :=
  mkEnvironment_total (fun _ _ => 1) 2 2 [⟨0, 0⟩] [⟨0, 1, 1⟩] [⟨0, 0⟩] 1 1 (by decide)

theorem mem_condList {c : Bool} {a x : Neighbor} :
    x ∈ (if c = true then [a] else []) ↔ (c = true ∧ x = a) := by
  cases c <;> simp

theorem actionTarget_time (s : State) (a : Action) :
    (actionTarget s a).time = s.time + 1 := by
  cases a <;> rfl

theorem valid_target_conds {env : LowLevelEnv} {s : State} {a : Action}
    (hvt : (stateValid env (actionTarget s a) &&
      transitionValid env s (actionTarget s a)) = true) :
    0 ≤ (actionTarget s a).x ∧ (actionTarget s a).x < env.dimx ∧
    0 ≤ (actionTarget s a).y ∧ (actionTarget s a).y < env.dimy ∧
    Location.mk (actionTarget s a).x (actionTarget s a).y ∉ env.obstacles ∧
    VertexConstraint.mk (s.time + 1) (actionTarget s a).x (actionTarget s a).y ∉
      env.constraints.vertexConstraints ∧
    EdgeConstraint.mk s.time s.x s.y (actionTarget s a).x (actionTarget s a).y ∉
      env.constraints.edgeConstraints := by
  obtain ⟨hv, ht⟩ := Bool.and_eq_true_iff.mp hvt
  rw [stateValid, decide_eq_true_iff] at hv
  rw [transitionValid, decide_eq_true_iff] at ht
  rw [actionTarget_time] at hv
  exact ⟨hv.1, hv.2.1, hv.2.2.1, hv.2.2.2.1, hv.2.2.2.2.1, hv.2.2.2.2.2, ht⟩

theorem conds_valid_target {env : LowLevelEnv} {s : State} {a : Action}
    (h1 : 0 ≤ (actionTarget s a).x) (h2 : (actionTarget s a).x < env.dimx)
    (h3 : 0 ≤ (actionTarget s a).y) (h4 : (actionTarget s a).y < env.dimy)
    (h5 : Location.mk (actionTarget s a).x (actionTarget s a).y ∉ env.obstacles)
    (h6 : VertexConstraint.mk (s.time + 1) (actionTarget s a).x (actionTarget s a).y ∉
      env.constraints.vertexConstraints)
    (h7 : EdgeConstraint.mk s.time s.x s.y (actionTarget s a).x (actionTarget s a).y ∉
      env.constraints.edgeConstraints) :
    (stateValid env (actionTarget s a) &&
      transitionValid env s (actionTarget s a)) = true := by
  rw [Bool.and_eq_true_iff]
  constructor
  · rw [stateValid, decide_eq_true_iff, actionTarget_time]
    exact ⟨h1, h2, h3, h4, h5, h6⟩
  · rw [transitionValid, decide_eq_true_iff]
    exact h7

/-- C6: a successor is produced by `getNeighbors` exactly when it is the
target of one of the five actions with cost `1` and time advanced by one,
its cell lies in-grid, is not an obstacle, is not forbidden by a vertex
constraint at time `s.time + 1`, and the move is not forbidden by an edge
constraint at time `s.time`. -/
theorem getNeighbors_spec (env : LowLevelEnv) (s : State) (nb : Neighbor) :
    nb ∈ getNeighbors env s ↔
      (nb.cost = 1 ∧ nb.state = actionTarget s nb.action ∧
        0 ≤ nb.state.x ∧ nb.state.x < env.dimx ∧
        0 ≤ nb.state.y ∧ nb.state.y < env.dimy ∧
        Location.mk nb.state.x nb.state.y ∉ env.obstacles ∧
        VertexConstraint.mk (s.time + 1) nb.state.x nb.state.y ∉
          env.constraints.vertexConstraints ∧
        EdgeConstraint.mk s.time s.x s.y nb.state.x nb.state.y ∉
          env.constraints.edgeConstraints) := by
  unfold getNeighbors
  simp only [List.mem_append, mem_condList]
  constructor
  · rintro ((((⟨hvt, rfl⟩ | ⟨hvt, rfl⟩) | ⟨hvt, rfl⟩) |
      ⟨hvt, rfl⟩) | ⟨hvt, rfl⟩) <;>
      exact ⟨rfl, rfl, valid_target_conds hvt⟩
  · rintro ⟨hcost, hstate, h1, h2, h3, h4, h5, h6, h7⟩
    obtain ⟨nst, nact, ncost⟩ := nb
    simp only at hcost hstate h1 h2 h3 h4 h5 h6 h7
    subst hcost
    subst hstate
    cases nact with
    | Wait =>
      exact Or.inl (Or.inl (Or.inl (Or.inl
        ⟨conds_valid_target h1 h2 h3 h4 h5 h6 h7, rfl⟩)))
    | Left =>
      exact Or.inl (Or.inl (Or.inl (Or.inr
        ⟨conds_valid_target h1 h2 h3 h4 h5 h6 h7, rfl⟩)))
    | Right =>
      exact Or.inl (Or.inl (Or.inr
        ⟨conds_valid_target h1 h2 h3 h4 h5 h6 h7, rfl⟩))
    | Up =>
      exact Or.inl (Or.inr
        ⟨conds_valid_target h1 h2 h3 h4 h5 h6 h7, rfl⟩)
    | Down =>
      exact Or.inr
        ⟨conds_valid_target h1 h2 h3 h4 h5 h6 h7, rfl⟩

theorem scanPairs_eq_none {n : Nat} {f : Nat → Nat → Option Conflict} :
    scanPairs n f = none ↔ ∀ i j, i < j → j < n → f i j = none := by
  unfold scanPairs
  rw [forFirst_eq_none]
  constructor
  · intro h i j hij hjn
    have hi : i < n := Nat.lt_trans hij hjn
    have hinner := h i (Nat.zero_le i) (by omega)
    rw [forFirst_eq_none] at hinner
    exact hinner j (by omega) (by omega)
  · intro h i hi0 hin
    rw [forFirst_eq_none]
    intro j hj1 hj2
    exact h i j (by omega) (by omega)

theorem scanPairs_eq_some {n : Nat} {f : Nat → Nat → Option Conflict} {c : Conflict}
    (h : scanPairs n f = some c) :
    ∃ i j, i < j ∧ j < n ∧ f i j = some c ∧
      (∀ i2 j2, i2 < i → i2 < j2 → j2 < n → f i2 j2 = none) ∧
      (∀ j2, i < j2 → j2 < j → f i j2 = none) := by
  unfold scanPairs at h
  obtain ⟨i, hi0, hin, hinner, houter⟩ := forFirst_eq_some h
  obtain ⟨j, hj1, hj2, hfij, hjmin⟩ := forFirst_eq_some hinner
  refine ⟨i, j, by omega, by omega, hfij, ?_, ?_⟩
  · intro i2 j2 hi2 hij2 hj2n
    have houti2 := houter i2 (Nat.zero_le i2) hi2
    rw [forFirst_eq_none] at houti2
    exact houti2 j2 (by omega) (by omega)
  · intro j2 hj2a hj2b
    exact hjmin j2 (by omega) hj2b

theorem vertexCheck_eq_none {sol : List (List State)} {t i j : Nat} :
    vertexCheck sol t i j = none ↔
      (getStateIdx sol i t).equalExceptTime (getStateIdx sol j t) = false := by
  cases h : (getStateIdx sol i t).equalExceptTime (getStateIdx sol j t) <;>
    simp [vertexCheck, h]

theorem vertexCheck_eq_some {sol : List (List State)} {t i j : Nat} {c : Conflict}
    (h : vertexCheck sol t i j = some c) :
    c.time = (t : Int) ∧ c.agent1 = i ∧ c.agent2 = j ∧
      c.type = ConflictType.Vertex ∧
      (getStateIdx sol i t).equalExceptTime (getStateIdx sol j t) = true := by
  cases hb : (getStateIdx sol i t).equalExceptTime (getStateIdx sol j t) with
  | false => simp [vertexCheck, hb] at h
  | true =>
    simp only [vertexCheck, hb, if_pos] at h
    obtain rfl := Option.some.inj h
    exact ⟨rfl, rfl, rfl, rfl, rfl⟩

theorem edgeCheck_eq_none {sol : List (List State)} {t i j : Nat} :
    edgeCheck sol t i j = none ↔
      ((getStateIdx sol i t).equalExceptTime (getStateIdx sol j (t + 1)) &&
        (getStateIdx sol i (t + 1)).equalExceptTime (getStateIdx sol j t)) = false := by
  cases h : (getStateIdx sol i t).equalExceptTime (getStateIdx sol j (t + 1)) &&
      (getStateIdx sol i (t + 1)).equalExceptTime (getStateIdx sol j t) <;>
    simp [edgeCheck, h]

theorem edgeCheck_eq_some {sol : List (List State)} {t i j : Nat} {c : Conflict}
    (h : edgeCheck sol t i j = some c) :
    c.time = (t : Int) ∧ c.agent1 = i ∧ c.agent2 = j ∧
      c.type = ConflictType.Edge ∧
      (getStateIdx sol i t).equalExceptTime (getStateIdx sol j (t + 1)) = true ∧
      (getStateIdx sol i (t + 1)).equalExceptTime (getStateIdx sol j t) = true := by
  cases hb : (getStateIdx sol i t).equalExceptTime (getStateIdx sol j (t + 1)) &&
      (getStateIdx sol i (t + 1)).equalExceptTime (getStateIdx sol j t) with
  | false => simp [edgeCheck, hb] at h
  | true =>
    simp only [edgeCheck, hb, if_pos] at h
    obtain ⟨h1, h2⟩ := Bool.and_eq_true_iff.mp hb
    obtain rfl := Option.some.inj h
    exact ⟨rfl, rfl, rfl, rfl, h1, h2⟩

theorem specVertexConflict_true {sol : List (List State)} {t i j : Nat} :
    specVertexConflict sol t i j = true ↔
      i < j ∧ j < sol.length ∧
        (getStateIdx sol i t).equalExceptTime (getStateIdx sol j t) = true := by
  simp [specVertexConflict, Bool.and_eq_true_iff, decide_eq_true_iff, and_assoc]

theorem specEdgeConflict_true {sol : List (List State)} {t i j : Nat} :
    specEdgeConflict sol t i j = true ↔
      i < j ∧ j < sol.length ∧
        (getStateIdx sol i t).equalExceptTime (getStateIdx sol j (t + 1)) = true ∧
        (getStateIdx sol i (t + 1)).equalExceptTime (getStateIdx sol j t) = true := by
  simp [specEdgeConflict, Bool.and_eq_true_iff, decide_eq_true_iff, and_assoc]

theorem conflictStep_eq_none {sol : List (List State)} {t : Nat} :
    conflictStep sol t = none ↔
      scanPairs sol.length (vertexCheck sol t) = none ∧
      scanPairs sol.length (edgeCheck sol t) = none := by
  cases hv : scanPairs sol.length (vertexCheck sol t) <;> simp [conflictStep, hv]

theorem conflictStep_eq_some {sol : List (List State)} {t : Nat} {c : Conflict}
    (h : conflictStep sol t = some c) :
    scanPairs sol.length (vertexCheck sol t) = some c ∨
      (scanPairs sol.length (vertexCheck sol t) = none ∧
        scanPairs sol.length (edgeCheck sol t) = some c) := by
  cases hv : scanPairs sol.length (vertexCheck sol t) with
  | some d =>
    left
    rw [conflictStep, hv] at h
    have h2 : some d = some c := h
    exact h2
  | none =>
    right
    rw [conflictStep, hv] at h
    have h2 : scanPairs sol.length (edgeCheck sol t) = some c := h
    exact ⟨rfl, h2⟩

theorem no_vertex_conflict_of_scan_none {sol : List (List State)} {t i j : Nat}
    (h : scanPairs sol.length (vertexCheck sol t) = none) :
    specVertexConflict sol t i j = false := by
  by_contra hb
  rw [Bool.not_eq_false] at hb
  obtain ⟨hij, hjn, heet⟩ := specVertexConflict_true.mp hb
  have hnone := scanPairs_eq_none.mp h i j hij hjn
  rw [vertexCheck_eq_none, heet] at hnone
  exact Bool.noConfusion hnone

theorem no_edge_conflict_of_scan_none {sol : List (List State)} {t i j : Nat}
    (h : scanPairs sol.length (edgeCheck sol t) = none) :
    specEdgeConflict sol t i j = false := by
  by_contra hb
  rw [Bool.not_eq_false] at hb
  obtain ⟨hij, hjn, heet1, heet2⟩ := specEdgeConflict_true.mp hb
  have hnone := scanPairs_eq_none.mp h i j hij hjn
  rw [edgeCheck_eq_none, heet1, heet2] at hnone
  exact Bool.noConfusion hnone

/-- C1 (counterexample): two agents whose one-state plans stand on the same
cell form a vertex conflict at the final time step `0`, yet
`getFirstConflict` reports no conflict: its time loop runs only to
`max_t - 1` and never checks the final time step. -/
theorem getFirstConflict_counterexample :
    getFirstConflict [[defaultState], [defaultState]] = none ∧
    specVertexConflict [[defaultState], [defaultState]] 0 0 1 = true ∧
    (∀ p ∈ [[defaultState], [defaultState]], p ≠ ([] : List State)) := by
  refine ⟨by decide, by decide, by decide⟩

/-- C1 (amended): on a joint plan of non-empty per-agent plans,
`getFirstConflict` returns `false` exactly when no vertex conflict and no
edge conflict exists at any time `t` with `t < max_t`, where `max_t` is the
largest last plan index; conflicts occurring only at time `max_t` (the
final step) or later are not detected. -/
theorem getFirstConflict_none_iff (sol : List (List State))
    (hne : ∀ p ∈ sol, p ≠ ([] : List State)) :
    getFirstConflict sol = none ↔
      ∀ t, t < maxPlanIndex sol → ∀ i j,
        specVertexConflict sol t i j = false ∧
        specEdgeConflict sol t i j = false := by
  unfold getFirstConflict
  rw [forFirst_eq_none]
  constructor
  · intro h t ht i j
    have hstep := conflictStep_eq_none.mp (h t (Nat.zero_le t) (by omega))
    exact ⟨no_vertex_conflict_of_scan_none hstep.1,
      no_edge_conflict_of_scan_none hstep.2⟩
  · intro h t ht0 htlt
    rw [conflictStep_eq_none]
    constructor
    · rw [scanPairs_eq_none]
      intro i j hij hjn
      rw [vertexCheck_eq_none]
      have hspec := (h t (by omega) i j).1
      simpa [specVertexConflict, hij, hjn] using hspec
    · rw [scanPairs_eq_none]
      intro i j hij hjn
      rw [edgeCheck_eq_none]
      have hspec := (h t (by omega) i j).2
      simpa [specEdgeConflict, hij, hjn, Bool.and_eq_false_iff] using hspec

theorem getFirstConflict_none_iff_witness :
    getFirstConflict [[⟨0, 0, 0⟩, ⟨1, 1, 0⟩], [⟨0, 5, 5⟩, ⟨1, 5, 6⟩]] = none ↔
      ∀ t, t < maxPlanIndex [[⟨0, 0, 0⟩, ⟨1, 1, 0⟩], [⟨0, 5, 5⟩, ⟨1, 5, 6⟩]] →
        ∀ i j,
          specVertexConflict [[⟨0, 0, 0⟩, ⟨1, 1, 0⟩], [⟨0, 5, 5⟩, ⟨1, 5, 6⟩]] t i j = false ∧
          specEdgeConflict [[⟨0, 0, 0⟩, ⟨1, 1, 0⟩], [⟨0, 5, 5⟩, ⟨1, 5, 6⟩]] t i j = false :=
  getFirstConflict_none_iff [[⟨0, 0, 0⟩, ⟨1, 1, 0⟩], [⟨0, 5, 5⟩, ⟨1, 5, 6⟩]] (by decide)

/-- C3: when `getFirstConflict` reports a conflict, that conflict is real
and is the first one: its time `t0` is minimal among all conflicts of the
plan (at any time, the final step included), at `t0` a vertex conflict is
preferred over an edge conflict, and among conflicts of the same kind at
`t0` the lexicographically smallest agent pair is reported. -/
theorem getFirstConflict_first (sol : List (List State)) (c : Conflict)
    (hne : ∀ p ∈ sol, p ≠ ([] : List State))
    (h : getFirstConflict sol = some c) :
    ∃ t0 : Nat, c.time = (t0 : Int) ∧
      (c.type = ConflictType.Vertex →
        specVertexConflict sol t0 c.agent1 c.agent2 = true) ∧
      (c.type = ConflictType.Edge →
        specEdgeConflict sol t0 c.agent1 c.agent2 = true) ∧
      (∀ t i j, specVertexConflict sol t i j = true →
        t0 < t ∨ (t0 = t ∧ c.type = ConflictType.Vertex ∧
          (c.agent1 < i ∨ (c.agent1 = i ∧ c.agent2 ≤ j)))) ∧
      (∀ t i j, specEdgeConflict sol t i j = true →
        t0 < t ∨ (t0 = t ∧ (c.type = ConflictType.Vertex ∨
          (c.agent1 < i ∨ (c.agent1 = i ∧ c.agent2 ≤ j))))) := by
  unfold getFirstConflict at h
  obtain ⟨t0, ht00, ht0n, hstep, hmin⟩ := forFirst_eq_some h
  have hEarlier : ∀ u, u < t0 →
      scanPairs sol.length (vertexCheck sol u) = none ∧
      scanPairs sol.length (edgeCheck sol u) = none :=
    fun u hu => conflictStep_eq_none.mp (hmin u (Nat.zero_le u) hu)
  rcases conflictStep_eq_some hstep with hv | ⟨hvnone, he⟩
  · obtain ⟨i0, j0, hij0, hj0n, hcheck, houtmin, hinmin⟩ := scanPairs_eq_some hv
    obtain ⟨htime, ha1, ha2, hty, heet⟩ := vertexCheck_eq_some hcheck
    refine ⟨t0, htime, fun _ => ?_, fun habs => ?_, ?_, ?_⟩
    · rw [ha1, ha2]
      exact specVertexConflict_true.mpr ⟨hij0, hj0n, heet⟩
    · rw [hty] at habs
      exact ConflictType.noConfusion habs
    · intro t i j hspec
      rcases Nat.lt_trichotomy t0 t with hlt | rfl | hgt
      · exact Or.inl hlt
      · right
        refine ⟨rfl, hty, ?_⟩
        rw [ha1, ha2]
        obtain ⟨hij, hjn, heet2⟩ := specVertexConflict_true.mp hspec
        rcases Nat.lt_trichotomy i0 i with h1 | rfl | h1
        · exact Or.inl h1
        · rcases Nat.lt_or_ge j j0 with hjlt | hjge
          · exfalso
            have hnone := hinmin j hij hjlt
            rw [vertexCheck_eq_none, heet2] at hnone
            exact Bool.noConfusion hnone
          · exact Or.inr ⟨rfl, hjge⟩
        · exfalso
          have hnone := houtmin i j h1 hij hjn
          rw [vertexCheck_eq_none, heet2] at hnone
          exact Bool.noConfusion hnone
      · exfalso
        have hfalse := @no_vertex_conflict_of_scan_none sol t i j
          (hEarlier t hgt).1
        rw [hspec] at hfalse
        exact Bool.noConfusion hfalse
    · intro t i j hspec
      rcases Nat.lt_trichotomy t0 t with hlt | rfl | hgt
      · exact Or.inl hlt
      · exact Or.inr ⟨rfl, Or.inl hty⟩
      · exfalso
        have hfalse := @no_edge_conflict_of_scan_none sol t i j
          (hEarlier t hgt).2
        rw [hspec] at hfalse
        exact Bool.noConfusion hfalse
  · obtain ⟨i0, j0, hij0, hj0n, hcheck, houtmin, hinmin⟩ := scanPairs_eq_some he
    obtain ⟨htime, ha1, ha2, hty, heet1, heet2⟩ := edgeCheck_eq_some hcheck
    refine ⟨t0, htime, fun habs => ?_, fun _ => ?_, ?_, ?_⟩
    · rw [hty] at habs
      exact ConflictType.noConfusion habs
    · rw [ha1, ha2]
      exact specEdgeConflict_true.mpr ⟨hij0, hj0n, heet1, heet2⟩
    · intro t i j hspec
      rcases Nat.lt_trichotomy t0 t with hlt | rfl | hgt
      · exact Or.inl hlt
      · exfalso
        have hfalse := @no_vertex_conflict_of_scan_none sol t0 i j hvnone
        rw [hspec] at hfalse
        exact Bool.noConfusion hfalse
      · exfalso
        have hfalse := @no_vertex_conflict_of_scan_none sol t i j
          (hEarlier t hgt).1
        rw [hspec] at hfalse
        exact Bool.noConfusion hfalse
    · intro t i j hspec
      rcases Nat.lt_trichotomy t0 t with hlt | rfl | hgt
      · exact Or.inl hlt
      · right
        refine ⟨rfl, Or.inr ?_⟩
        rw [ha1, ha2]
        obtain ⟨hij, hjn, hse1, hse2⟩ := specEdgeConflict_true.mp hspec
        rcases Nat.lt_trichotomy i0 i with h1 | rfl | h1
        · exact Or.inl h1
        · rcases Nat.lt_or_ge j j0 with hjlt | hjge
          · exfalso
            have hnone := hinmin j hij hjlt
            rw [edgeCheck_eq_none, hse1, hse2] at hnone
            exact Bool.noConfusion hnone
          · exact Or.inr ⟨rfl, hjge⟩
        · exfalso
          have hnone := houtmin i j h1 hij hjn
          rw [edgeCheck_eq_none, hse1, hse2] at hnone
          exact Bool.noConfusion hnone
      · exfalso
        have hfalse := @no_edge_conflict_of_scan_none sol t i j
          (hEarlier t hgt).2
        rw [hspec] at hfalse
        exact Bool.noConfusion hfalse

theorem getFirstConflict_first_witness :
    ∃ t0 : Nat,
      (Conflict.mk 0 0 1 ConflictType.Vertex 0 0 0 0).time = (t0 : Int) ∧
      ((Conflict.mk 0 0 1 ConflictType.Vertex 0 0 0 0).type = ConflictType.Vertex →
        specVertexConflict [[⟨0, 0, 0⟩, ⟨1, 1, 0⟩], [⟨0, 0, 0⟩, ⟨1, 0, 1⟩]] t0
          (Conflict.mk 0 0 1 ConflictType.Vertex 0 0 0 0).agent1
          (Conflict.mk 0 0 1 ConflictType.Vertex 0 0 0 0).agent2 = true) ∧
      ((Conflict.mk 0 0 1 ConflictType.Vertex 0 0 0 0).type = ConflictType.Edge →
        specEdgeConflict [[⟨0, 0, 0⟩, ⟨1, 1, 0⟩], [⟨0, 0, 0⟩, ⟨1, 0, 1⟩]] t0
          (Conflict.mk 0 0 1 ConflictType.Vertex 0 0 0 0).agent1
          (Conflict.mk 0 0 1 ConflictType.Vertex 0 0 0 0).agent2 = true) ∧
      (∀ t i j,
        specVertexConflict [[⟨0, 0, 0⟩, ⟨1, 1, 0⟩], [⟨0, 0, 0⟩, ⟨1, 0, 1⟩]] t i j = true →
        t0 < t ∨ (t0 = t ∧
          (Conflict.mk 0 0 1 ConflictType.Vertex 0 0 0 0).type = ConflictType.Vertex ∧
          ((Conflict.mk 0 0 1 ConflictType.Vertex 0 0 0 0).agent1 < i ∨
            ((Conflict.mk 0 0 1 ConflictType.Vertex 0 0 0 0).agent1 = i ∧
              (Conflict.mk 0 0 1 ConflictType.Vertex 0 0 0 0).agent2 ≤ j)))) ∧
      (∀ t i j,
        specEdgeConflict [[⟨0, 0, 0⟩, ⟨1, 1, 0⟩], [⟨0, 0, 0⟩, ⟨1, 0, 1⟩]] t i j = true →
        t0 < t ∨ (t0 = t ∧
          ((Conflict.mk 0 0 1 ConflictType.Vertex 0 0 0 0).type = ConflictType.Vertex ∨
            ((Conflict.mk 0 0 1 ConflictType.Vertex 0 0 0 0).agent1 < i ∨
              ((Conflict.mk 0 0 1 ConflictType.Vertex 0 0 0 0).agent1 = i ∧
                (Conflict.mk 0 0 1 ConflictType.Vertex 0 0 0 0).agent2 ≤ j))))) :=
  getFirstConflict_first [[⟨0, 0, 0⟩, ⟨1, 1, 0⟩], [⟨0, 0, 0⟩, ⟨1, 0, 1⟩]]
    ⟨0, 0, 1, ConflictType.Vertex, 0, 0, 0, 0⟩ (by decide) (by decide)

end CBSTA
